import Mathlib

/-!
# Verification of the multi-agent coordination core

A shallow embedding, in Lean 4, of the coordination core of this repository:

* `agents/core/communication.py` — `Message`, `MessageBus`, `AgentCommunicator`;
* `agents/core/base.py` — `BaseAgent` lifecycle (`start` / `execute`);
* `agents/core/registry.py` — `AgentRegistry.get_agent` (cached branch);
* `agents/implementations/orchestration/agent.py` — workflow data model and
  the sequential / parallel workflow executors.

Modelling conventions:

* Python `dict[str, Any]` values become the inductive `Value`; dictionaries
  are association lists with Python semantics (`insert` replaces in place,
  else appends; keys built this way are unique).
* `datetime` instants become `Nat` ticks; `datetime.utcnow()` is an explicit
  `now : Nat` parameter.
* `async` functions become pure state-passing functions.  The environment's
  nondeterminism (which agent attempt succeeds, whether a correlated response
  arrives in time) is an explicit parameter.
* Unbounded `while` loops are given explicit fuel, one unit per iteration, so
  genuine divergence is observable as an out-of-fuel outcome for every fuel.
* Where a claim needs to observe *which* operations ran (agent invocations,
  backoff sleeps, steps started), the functions additionally return a ghost
  trace; the trace is write-only instrumentation and never influences control
  flow.
-/

/-- Python values as they appear in the payload / context dictionaries of the
agent system: strings, integers, booleans and nested dictionaries. -/
inductive Value where
  | str (s : String)
  | int (n : Int)
  | boolV (b : Bool)
  | dict (entries : List (String × Value))

/-- A Python `dict[str, Any]`, modelled as an association list whose keys are
unique (maintained by `Dict.insert`). -/
abbrev Dict := List (String × Value)

/-- `d[k]` / `d.get(k)`: the value stored under `k`, if any. -/
def Dict.get? (d : Dict) (k : String) : Option Value :=
  (d.find? (fun kv => kv.1 == k)).map (fun kv => kv.2)

/-- `k in d`. -/
def Dict.hasKey (d : Dict) (k : String) : Bool :=
  (d.find? (fun kv => kv.1 == k)).isSome

/-- `d[k] = v` with Python dict semantics: if `k` is present its value is
replaced in place (insertion order kept), otherwise the pair is appended. -/
def Dict.insert (d : Dict) (k : String) (v : Value) : Dict :=
  if d.any (fun kv => kv.1 == k) then
    d.map (fun kv => if kv.1 == k then (kv.1, v) else kv)
  else
    d ++ [(k, v)]

/-! ## `agents/core/communication.py` — data model -/

/-- `MessageType` (communication.py, lines 14–22). -/
inductive MessageType where
  | task_request
  | task_response
  | status_update
  | error_report
  | heartbeat
  | shutdown
  | coordination
deriving DecidableEq

/-- `MessagePriority` (communication.py, lines 25–30). -/
inductive MessagePriority where
  | low
  | normal
  | high
  | critical
deriving DecidableEq

/-- The `.value` of each `MessagePriority` member (`LOW = 1 … CRITICAL = 4`). -/
def MessagePriority.value : MessagePriority → Nat
  | .low => 1
  | .normal => 2
  | .high => 3
  | .critical => 4

/-- `Message` (communication.py, lines 33–44).  `timestamp` and `expires_at`
are `datetime`s modelled as `Nat` ticks. -/
structure Message where
  id : String
  type : MessageType
  priority : MessagePriority
  sender_id : String
  recipient_id : String
  payload : Dict
  timestamp : Nat
  reply_to : Option String := none
  expires_at : Option Nat := none

/-! ## `MessageBus` queue model

`MessageBus.send_message` (lines 141–150) puts
`((4 - message.priority.value, message.timestamp), message.timestamp, message)`
into an `asyncio.PriorityQueue`; `_process_messages` (lines 104–118)
repeatedly takes the smallest entry and `_deliver_message` fans it out.  We
model the queue as the list of entries in arrival order and delivery as
dequeuing entries in ascending key order (which is what the binary heap
implements; entries that tie on the whole key would make CPython compare
`Message` objects and crash, so the delivery order is only specified for
queues whose keys are distinct — every claim below supplies messages with
distinct timestamps). -/

/-- The priority-queue key computed by `send_message`:
`(4 - message.priority.value, message.timestamp)`. -/
def sendKey (m : Message) : Nat × Nat :=
  (4 - m.priority.value, m.timestamp)

/-- One entry of the bus's priority queue: `(key, timestamp, message)`. -/
abbrev QueueEntry := (Nat × Nat) × Nat × Message

/-- Strict lexicographic order on queue keys. -/
def keyLt (a b : Nat × Nat) : Prop :=
  a.1 < b.1 ∨ (a.1 = b.1 ∧ a.2 < b.2)

instance : DecidableRel keyLt := fun a b => by
  unfold keyLt; infer_instance

/-- Non-strict lexicographic order on queue keys. -/
def keyLe (a b : Nat × Nat) : Prop :=
  keyLt a b ∨ a = b

instance : DecidableRel keyLe := fun a b => by
  unfold keyLe; infer_instance

/-- Heap order between queue entries: compare their keys. -/
def entryLe (e f : QueueEntry) : Prop := keyLe e.1 f.1

instance : DecidableRel entryLe := fun e f => by
  unfold entryLe; infer_instance

/-- `MessageBus.send_message` (communication.py, lines 141–150): a message
whose `expires_at` lies strictly in the past is dropped (the function returns
without enqueuing and without raising); otherwise the entry
`(sendKey m, m.timestamp, m)` is enqueued. -/
def send_message (now : Nat) (q : List QueueEntry) (m : Message) : List QueueEntry :=
  match m.expires_at with
  | some t => if now > t then q else q ++ [(sendKey m, m.timestamp, m)]
  | none => q ++ [(sendKey m, m.timestamp, m)]

/-- Enqueue a batch of messages in order, starting from the empty queue. -/
def enqueueAll (now : Nat) (msgs : List Message) : List QueueEntry :=
  msgs.foldl (send_message now) []

/-- The order in which `_process_messages` hands queued messages to
`_deliver_message`: ascending heap-key order. -/
def deliveryOrder (q : List QueueEntry) : List Message :=
  (q.insertionSort entryLe).map (fun e => e.2.2)

/-! ## `AgentCommunicator` — pending-request correlation (communication.py, lines 172–276) -/

/-- The state of one `asyncio.Future` held in `pending_requests`. -/
inductive FutureState where
  | waiting
  | resolved (m : Message)
  | cancelled

/-- `AgentCommunicator.pending_requests`: request-message id ↦ future. -/
abbrev PendingMap := List (String × FutureState)

/-- Lookup in a `PendingMap`. -/
def PendingMap.lookup (p : PendingMap) (k : String) : Option FutureState :=
  (p.find? (fun kv => kv.1 == k)).map (fun kv => kv.2)

/-- `k in pending_requests`. -/
def PendingMap.hasKey (p : PendingMap) (k : String) : Bool :=
  (p.find? (fun kv => kv.1 == k)).isSome

/-- `pending_requests[k] = fut` (Python dict assignment). -/
def PendingMap.insert (p : PendingMap) (k : String) (f : FutureState) : PendingMap :=
  if p.any (fun kv => kv.1 == k) then
    p.map (fun kv => if kv.1 == k then (kv.1, f) else kv)
  else
    p ++ [(k, f)]

/-- `del pending_requests[k]`. -/
def PendingMap.eraseKey (p : PendingMap) (k : String) : PendingMap :=
  p.filter (fun kv => kv.1 != k)

/-- `future.set_result(message)` guarded by `if not future.done()`
(communication.py, lines 190–191): a waiting future becomes resolved; a
future that is already resolved or cancelled is left untouched. -/
def FutureState.setResultIfPending (f : FutureState) (m : Message) : FutureState :=
  match f with
  | .waiting => .resolved m
  | f => f

/-- `AgentCommunicator._handle_message` (communication.py, lines 185–191): a
message whose `reply_to` names an outstanding pending request resolves that
request's future (if still pending); every other message leaves the map
untouched. -/
def handle_message (pending : PendingMap) (m : Message) : PendingMap :=
  match m.reply_to with
  | some r =>
    if pending.hasKey r then
      pending.map (fun kv =>
        if kv.1 == r then (kv.1, kv.2.setResultIfPending m) else kv)
    else pending
  | none => pending

/-- What `await asyncio.wait_for(response_future, timeout)` observed inside
`send_request`: a correlated response arrived in time, the deadline elapsed
first, or the future was cancelled (by `cleanup`). -/
inductive WaitOutcome where
  | arrived (m : Message)
  | timedOut
  | wasCancelled

/-- How one `send_request` call resolves.  `asyncio.TimeoutError` and
`asyncio.CancelledError` are distinct exception classes, so a timeout is
distinguishable from both a normal response and any other failure. -/
inductive RequestResult where
  | response (m : Message)
  | timeoutFailure
  | cancelledFailure

/-- `AgentCommunicator.send_request` (communication.py, lines 193–218):
register a fresh future under the request's id, publish the request, wait for
the correlated response with a timeout, and in a `finally` block delete the
pending entry (guarded by an `in` check) whatever happened.  The bus
enqueueing is not modelled here (the request's fate is the explicit
`WaitOutcome`); the function returns the final pending map and the call's
result. -/
def send_request (pending : PendingMap) (request_id : String)
    (wait : WaitOutcome) : PendingMap × RequestResult :=
  let registered := pending.insert request_id .waiting
  let final :=
    if registered.hasKey request_id then registered.eraseKey request_id
    else registered
  match wait with
  | .arrived m => (final, .response m)
  | .timedOut => (final, .timeoutFailure)
  | .wasCancelled => (final, .cancelledFailure)

/-! ## `agents/core/base.py` — `BaseAgent` lifecycle -/

/-- `AgentStatus` (base.py, lines 15–21). -/
inductive AgentStatus where
  | initializing
  | ready
  | running
  | error
  | stopped
deriving DecidableEq

/-- The slice of `BaseAgent` state that `start` / `execute` read and write:
the configured id and the lifecycle status. -/
structure AgentState where
  id : String
  status : AgentStatus
deriving DecidableEq

/-- How a failed `BaseAgent.execute` call surfaces: the not-ready
`RuntimeError`, the invalid-input `ValueError`, or the exception re-raised
from `process`. -/
inductive ExecError where
  | notReady (st : AgentStatus)
  | invalidInput
  | processFailure (e : String)
deriving DecidableEq

/-- `BaseAgent.execute` (base.py, lines 166–197).  `validate` stands for the
subclass's `validate_input`, `proc` for its `process`.  On success the result
is augmented with the `_metadata` envelope (time-valued metadata fields are
outside this model; the agent id is kept) and the status returns to `READY`;
if `process` raises, the status is set to `ERROR` and the exception
propagates. -/
def agent_execute (validate : Dict → Bool) (proc : Dict → Except String Dict)
    (a : AgentState) (input : Dict) : AgentState × Except ExecError Dict :=
  if a.status ≠ .ready then
    (a, .error (.notReady a.status))
  else if ¬ validate input then
    (a, .error .invalidInput)
  else
    match proc input with
    | .ok r =>
      ({ a with status := .ready },
       .ok (r.insert "_metadata" (.dict [("agent_id", .str a.id)])))
    | .error e => ({ a with status := .error }, .error (.processFailure e))

/-- What the subclass's `initialize` did when `start` awaited it. -/
inductive InitOutcome where
  | succeeded
  | returnedFalse
  | raised (e : String)

/-- `BaseAgent.start` (base.py, lines 144–153): on a successful `initialize`
the status becomes `READY` and `start` returns `True`; a `False` return
leaves the status alone; a raised exception sets `ERROR` and propagates. -/
def agent_start (init_outcome : InitOutcome) (a : AgentState) :
    AgentState × Except String Bool :=
  match init_outcome with
  | .succeeded => ({ a with status := .ready }, .ok true)
  | .returnedFalse => (a, .ok false)
  | .raised e => ({ a with status := .error }, .error e)

/-! ## `agents/core/registry.py` — `AgentRegistry.get_agent`, cached branch -/

/-- `AgentRegistry.get_agent` (registry.py, lines 113–140), restricted to the
branch where the id is already cached (`agent_id in self.agents`): only a
`STOPPED` agent is restarted (when `auto_start` is set); any other cached
agent — `READY`, `RUNNING` or `ERROR` — is returned as-is.  The returned
`Bool` is a ghost flag recording whether `agent.start()` was invoked. -/
def get_agent_cached (init_outcome : InitOutcome) (auto_start : Bool)
    (a : AgentState) : AgentState × Bool :=
  if a.status = .stopped then
    if auto_start then ((agent_start init_outcome a).1, true)
    else (a, false)
  else (a, false)

/-! ## `agents/implementations/orchestration/agent.py` — workflow data model -/

/-- `WorkflowStatus` (orchestration/agent.py, lines 20–27). -/
inductive WorkflowStatus where
  | pending
  | running
  | paused
  | completed
  | failed
  | cancelled
deriving DecidableEq

/-- `TaskPriority` (orchestration/agent.py, lines 30–35). -/
inductive TaskPriority where
  | low
  | normal
  | high
  | critical
deriving DecidableEq

/-- `WorkflowStep` (orchestration/agent.py, lines 38–48). -/
structure WorkflowStep where
  id : String
  agent_id : String
  task_data : Dict
  dependencies : List String := []
  timeout : Nat := 30
  retry_count : Nat := 3
  priority : TaskPriority := .normal
  condition : Option String := none

/-- `WorkflowDefinition` (orchestration/agent.py, lines 51–61). -/
structure WorkflowDefinition where
  id : String
  name : String
  description : String := ""
  steps : List WorkflowStep
  parallel_execution : Bool := false
  timeout : Nat := 300
  on_failure : String := "stop"

/-- `WorkflowExecution` (orchestration/agent.py, lines 64–75).  The
`start_time` / `end_time` datetimes are outside the model. -/
structure WorkflowExecution where
  workflow_id : String
  execution_id : String
  definition : WorkflowDefinition
  status : WorkflowStatus := .pending
  current_step : Nat := 0
  step_results : Dict := []
  error_log : List String := []

/-! ## Helpers of the orchestrator -/

/-- Python `str(value)`, as `_evaluate_condition` applies it to context
values before substituting them into the condition string (dictionaries
render in Python's brace syntax, written here with escapes). -/
def valueToString : Value → String
  | .str s => s
  | .int n => toString n
  | .boolV b => if b then "True" else "False"
  | .dict _ => "\x7b...\x7d"

/-- Python truthiness, as `bool(context[condition])` applies it. -/
def valueTruthy : Value → Bool
  | .str s => s ≠ ""
  | .int n => n ≠ 0
  | .boolV b => b
  | .dict d => ¬ d.isEmpty

/-- `_evaluate_condition` (orchestration/agent.py, lines 447–467): substitute
every context key by the string form of its value, then try a `>` numeric
comparison, then an `=` string equality, then a bare context-key truthiness
test; anything unparseable — including a split that does not yield exactly
two parts, or operands `float` cannot parse (numeric literals are modelled as
integers) — falls into the bare `except` and yields `True`. -/
def evaluate_condition (condition : String) (context : Dict) : Bool :=
  let c := context.foldl (fun acc kv => acc.replace kv.1 (valueToString kv.2)) condition
  if (c.splitOn ">").length ≥ 2 then
    match c.splitOn ">" with
    | [l, r] =>
      match l.trim.toInt?, r.trim.toInt? with
      | some a, some b => a > b
      | _, _ => true
    | _ => true
  else if (c.splitOn "=").length ≥ 2 then
    match c.splitOn "=" with
    | [l, r] => l.trim == r.trim
    | _ => true
  else if context.hasKey c then
    match context.get? c with
    | some v => valueTruthy v
    | none => true
  else
    true

/-- The guard `if step.condition and not await self._evaluate_condition(...)`
as both executors apply it (a `None` or empty condition string is falsy in
Python, so such a step is never skipped on account of its condition). -/
def condition_blocks (step : WorkflowStep) (context : Dict) : Bool :=
  match step.condition with
  | some c => c ≠ "" && ¬ evaluate_condition c context
  | none => false

/-- `_substitute_context_variables` (orchestration/agent.py, lines 469–482):
every string value starting with `"from_"` is replaced by the context entry
under `value.replace("from_", "") + "_result"` (Python's `replace` rewrites
every occurrence), falling back to the literal value when the context has no
such key. -/
def substitute_context_variables (task_data : Dict) (context : Dict) : Dict :=
  task_data.map (fun kv =>
    match kv.2 with
    | .str s =>
      if s.startsWith "from_" then
        (kv.1, (context.get? ((s.replace "from_" "") ++ "_result")).getD (.str s))
      else kv
    | _ => kv)

/-- `_check_dependencies` (orchestration/agent.py, lines 443–445):
`all(dep in results for dep in step.dependencies)`. -/
def check_dependencies (step : WorkflowStep) (results : Dict) : Bool :=
  step.dependencies.all (fun dep => results.hasKey dep)

/-! ## `_execute_step` (orchestration/agent.py, lines 413–441) -/

/-- What one awaited `agent.execute(task_data)` call under
`asyncio.wait_for(..., timeout=step.timeout)` did. -/
inductive AttemptOutcome where
  | ok (r : Dict)
  | timedOut
  | raised (e : String)

/-- `True` unless the attempt returned a result. -/
def AttemptOutcome.isFailure : AttemptOutcome → Bool
  | .ok _ => false
  | .timedOut => true
  | .raised _ => true

/-- The environment a workflow runs against: for each agent id, per attempt
index and task data, the outcome of that `agent.execute` call.  (The agents
referenced by the claims' workflows all exist, so `registry.get_agent` always
returns an agent here.) -/
abbrev AgentEnv := String → Nat → Dict → AttemptOutcome

/-- Ghost trace of what `_execute_step` did: the initial
`registry.get_agent`, each `agent.execute` attempt, and each
`asyncio.sleep(1)` backoff between attempts. -/
inductive StepEvent where
  | getAgent (agent_id : String)
  | callAgent (agent_id : String) (attempt : Nat)
  | backoffSleep
deriving DecidableEq

/-- How a failed step surfaces out of `_execute_step`: the `TimeoutError`
raised after the last timed-out attempt, the re-raised exception of the last
failed attempt, or the fallback `RuntimeError` after the loop (reached only
when `retry_count` is zero). -/
inductive StepError where
  | stepTimeout (step_id : String)
  | stepException (e : String)
  | stepExhausted (step_id : String)
deriving DecidableEq

/-- The retry loop of `_execute_step` (orchestration/agent.py, lines
425–441), started at `attempt`: `for attempt in range(step.retry_count)`,
each attempt awaiting the agent under the step timeout; a failure on the last
attempt (`attempt == step.retry_count - 1`) raises, an earlier failure sleeps
one second and retries; if the loop ends without returning, the fallback
`RuntimeError` is raised. -/
def execute_step_loop (env : AgentEnv) (step : WorkflowStep) (task_data : Dict)
    (attempt : Nat) : List StepEvent × Except StepError Dict :=
  if _h : attempt < step.retry_count then
    match env step.agent_id attempt task_data with
    | .ok r => ([.callAgent step.agent_id attempt], .ok r)
    | .timedOut =>
      if attempt == step.retry_count - 1 then
        ([.callAgent step.agent_id attempt], .error (.stepTimeout step.id))
      else
        let rest := execute_step_loop env step task_data (attempt + 1)
        (.callAgent step.agent_id attempt :: .backoffSleep :: rest.1, rest.2)
    | .raised e =>
      if attempt == step.retry_count - 1 then
        ([.callAgent step.agent_id attempt], .error (.stepException e))
      else
        let rest := execute_step_loop env step task_data (attempt + 1)
        (.callAgent step.agent_id attempt :: .backoffSleep :: rest.1, rest.2)
  else
    ([], .error (.stepExhausted step.id))
termination_by step.retry_count - attempt

/-- `_execute_step` (orchestration/agent.py, lines 413–441): fetch the agent,
substitute context variables into a copy of the step's task data, then run
the retry loop. -/
def execute_step (env : AgentEnv) (step : WorkflowStep) (context : Dict) :
    List StepEvent × Except StepError Dict :=
  let task_data := substitute_context_variables step.task_data context
  let run := execute_step_loop env step task_data 0
  (.getAgent step.agent_id :: run.1, run.2)

/-! ## `_execute_sequential_workflow` (orchestration/agent.py, lines 318–347) -/

/-- The dictionary `_execute_sequential_workflow` / `_execute_parallel_workflow`
return on completion:
`{"workflow_completed": True, "steps_executed": len(results), "step_results": results}`. -/
structure WorkflowRunResult where
  workflow_completed : Bool
  steps_executed : Nat
  step_results : Dict

/-- The mutable state the sequential loop threads: its local `results` and
`context`, the `execution` record's `step_results` and `current_step`, and a
ghost trace of the step ids for which `_execute_step` was invoked, in start
order. -/
structure SeqState where
  results : Dict
  context : Dict
  step_results : Dict
  current_step : Nat
  trace : List String

/-- The `for step in execution.definition.steps` body of
`_execute_sequential_workflow`: skip a step whose dependencies are not all in
`results`; skip a step whose condition evaluates false; otherwise run the
step, record its result under its id in `results`, merge
`{step.id}_result` into the context, mirror the result into
`execution.step_results` and bump `current_step`.  A step failure propagates
(the remaining steps are not visited). -/
def seq_steps (env : AgentEnv) : List WorkflowStep → SeqState →
    SeqState × Option StepError
  | [], st => (st, none)
  | step :: rest, st =>
    if ¬ check_dependencies step st.results then
      seq_steps env rest st
    else if condition_blocks step st.context then
      seq_steps env rest st
    else
      match execute_step env step st.context with
      | (_, .ok r) =>
        seq_steps env rest
          { results := st.results.insert step.id (.dict r)
            context := st.context.insert (step.id ++ "_result") (.dict r)
            step_results := st.step_results.insert step.id (.dict r)
            current_step := st.current_step + 1
            trace := st.trace ++ [step.id] }
      | (_, .error e) => ({ st with trace := st.trace ++ [step.id] }, some e)

/-- `_execute_sequential_workflow` (orchestration/agent.py, lines 318–347):
run the steps in declaration order against a copy of the execution data; on
success return the `workflow_completed` summary, otherwise propagate the step
failure.  The first component is the final loop state (whose `step_results`
is what the `execution` record holds afterwards). -/
def run_sequential (env : AgentEnv) (exec : WorkflowExecution)
    (execution_data : Dict) : SeqState × Except StepError WorkflowRunResult :=
  let init : SeqState :=
    { results := [], context := execution_data,
      step_results := exec.step_results, current_step := exec.current_step,
      trace := [] }
  match seq_steps env exec.definition.steps init with
  | (st, none) =>
    (st, .ok { workflow_completed := true, steps_executed := st.results.length,
               step_results := st.results })
  | (st, some e) => (st, .error e)

/-! ## `_execute_parallel_workflow` (orchestration/agent.py, lines 349–411) -/

/-- The mutable state of the parallel loop: `pending_steps`,
`completed_steps`, the local `results` and `context`, the `execution`
record's `step_results` and `error_log`, and the ghost trace of step ids for
which an `_execute_step` task was created, in creation order. -/
structure ParState where
  pending : List WorkflowStep
  completed : List String
  results : Dict
  context : Dict
  step_results : Dict
  error_log : List String
  trace : List String

/-- `ready_steps`: the pending steps whose declared dependencies are all in
`completed_steps` (orchestration/agent.py, lines 359–362). -/
def ready_of (pending : List WorkflowStep) (completed : List String) :
    List WorkflowStep :=
  pending.filter (fun s => s.dependencies.all (fun d => completed.contains d))

/-- `pending_steps.remove(step)`: drop the first pending step with this id
(step ids are unique within a workflow, so this is Python's `list.remove`). -/
def removeStep (pending : List WorkflowStep) (step : WorkflowStep) :
    List WorkflowStep :=
  pending.eraseP (fun s => s.id == step.id)

/-- The `for step, task in tasks` result-collection loop
(orchestration/agent.py, lines 392–405): a successful task moves its step
into `results` / `context` / `execution.step_results` / `completed_steps` and
out of `pending_steps`; a failed task appends to the error log and — under
`on_failure == "stop"` — re-raises immediately, otherwise is merely dropped
from `pending_steps` (its id never enters `completed_steps`). -/
def process_task_results (on_failure : String) :
    List (WorkflowStep × Except StepError Dict) → ParState →
    ParState × Option StepError
  | [], st => (st, none)
  | (step, res) :: rest, st =>
    match res with
    | .ok r =>
      process_task_results on_failure rest
        { st with
          results := st.results.insert step.id (.dict r)
          context := st.context.insert (step.id ++ "_result") (.dict r)
          step_results := st.step_results.insert step.id (.dict r)
          completed := st.completed ++ [step.id]
          pending := removeStep st.pending step }
    | .error e =>
      let st1 := { st with
        error_log := st.error_log ++ ["Step " ++ step.id ++ " failed"] }
      if on_failure == "stop" then (st1, some e)
      else
        process_task_results on_failure rest
          { st1 with pending := removeStep st1.pending step }

/-- The outcome of the parallel `while pending_steps` loop, with the loop
state at that point: normal completion, the deadlock `RuntimeError`, a
re-raised step failure (`on_failure == "stop"`), or fuel exhaustion — the
observable form of a loop that never terminates. -/
inductive ParOutcome where
  | completedRun (st : ParState) (res : WorkflowRunResult)
  | deadlocked (st : ParState)
  | stepFailed (st : ParState) (e : StepError)
  | outOfFuel (st : ParState)

/-- The loop state an outcome carries. -/
def ParOutcome.state : ParOutcome → ParState
  | .completedRun st _ => st
  | .deadlocked st => st
  | .stepFailed st _ => st
  | .outOfFuel st => st

/-- The ghost start-order trace of an outcome. -/
def ParOutcome.trace (o : ParOutcome) : List String :=
  o.state.trace

/-- Whether the outcome is fuel exhaustion. -/
def ParOutcome.isOutOfFuel : ParOutcome → Bool
  | .outOfFuel _ => true
  | _ => false

/-- Whether the outcome is the deadlock `RuntimeError`. -/
def ParOutcome.isDeadlocked : ParOutcome → Bool
  | .deadlocked _ => true
  | _ => false

/-- Whether the outcome is normal completion. -/
def ParOutcome.isCompleted : ParOutcome → Bool
  | .completedRun _ _ => true
  | _ => false

/-- The `while pending_steps` loop of `_execute_parallel_workflow`
(orchestration/agent.py, lines 357–405), one fuel unit per iteration.  Each
iteration: compute `ready_steps`; if none are ready, raise the deadlock
`RuntimeError` when no pending dependency refers to a still-pending step id,
else sleep briefly and re-poll with the state unchanged; otherwise skip the
condition-blocked ready steps (marking them completed), create a task per
remaining ready step against the context as of task creation, and collect the
task results in order. -/
def par_loop (env : AgentEnv) (on_failure : String) :
    Nat → ParState → ParOutcome
  | 0, st => .outOfFuel st
  | fuel + 1, st =>
    if st.pending.isEmpty then
      .completedRun st
        { workflow_completed := true, steps_executed := st.results.length,
          step_results := st.results }
    else
      let ready := ready_of st.pending st.completed
      if ready.isEmpty then
        let pending_ids := st.pending.map (fun s => s.id)
        if ¬ st.pending.any (fun s =>
            s.dependencies.any (fun d => pending_ids.contains d)) then
          .deadlocked st
        else
          par_loop env on_failure fuel st
      else
        let skipped := ready.filter (fun s => condition_blocks s st.context)
        let to_run := ready.filter (fun s => ¬ condition_blocks s st.context)
        let tasks := to_run.map (fun s => (s, (execute_step env s st.context).2))
        let st1 : ParState :=
          { st with
            pending := skipped.foldl removeStep st.pending
            completed := st.completed ++ skipped.map (fun s => s.id)
            trace := st.trace ++ to_run.map (fun s => s.id) }
        match process_task_results on_failure tasks st1 with
        | (st2, none) => par_loop env on_failure fuel st2
        | (st2, some e) => .stepFailed st2 e

/-- `_execute_parallel_workflow` (orchestration/agent.py, lines 349–411):
run the loop from the initial state — all steps pending, nothing completed,
the context a copy of the execution data. -/
def run_parallel (env : AgentEnv) (exec : WorkflowExecution)
    (execution_data : Dict) (fuel : Nat) : ParOutcome :=
  par_loop env exec.definition.on_failure fuel
    { pending := exec.definition.steps, completed := [], results := [],
      context := execution_data, step_results := exec.step_results,
      error_log := exec.error_log, trace := [] }

/-! ## Pause / cancel (orchestration/agent.py, lines 565–630) -/

/-- `active_executions`. -/
abbrev ExecutionMap := List (String × WorkflowExecution)

/-- `_pause_workflow` (orchestration/agent.py, lines 565–583): if the
execution id is known, set its status to `PAUSED` and report success;
otherwise report failure.  Nothing else about the execution is touched. -/
def pause_workflow (active : ExecutionMap) (execution_id : String) :
    ExecutionMap × Bool :=
  if (active.find? (fun kv => kv.1 == execution_id)).isSome then
    (active.map (fun kv =>
      if kv.1 == execution_id then (kv.1, { kv.2 with status := .paused })
      else kv), true)
  else (active, false)

/-- `_cancel_workflow` (orchestration/agent.py, lines 611–630): if the
execution id is known, set its status to `CANCELLED` (and its end time, which
is outside the model) and report success; otherwise report failure. -/
def cancel_workflow (active : ExecutionMap) (execution_id : String) :
    ExecutionMap × Bool :=
  if (active.find? (fun kv => kv.1 == execution_id)).isSome then
    (active.map (fun kv =>
      if kv.1 == execution_id then (kv.1, { kv.2 with status := .cancelled })
      else kv), true)
  else (active, false)

/-! ## Auxiliary observations and concrete scenarios used by the claims -/

/-- The expiry test of `send_message`: `message.expires_at and
datetime.utcnow() > message.expires_at`. -/
def expired (now : Nat) (m : Message) : Bool :=
  match m.expires_at with
  | some t => now > t
  | none => false

/-- How many `agent.execute` invocations a step-event trace records. -/
def numCalls (evs : List StepEvent) : Nat :=
  evs.countP (fun ev => match ev with | .callAgent _ _ => true | _ => false)

/-- How many backoff sleeps a step-event trace records. -/
def numSleeps (evs : List StepEvent) : Nat :=
  evs.countP (fun ev => match ev with | .backoffSleep => true | _ => false)

/-- The error `_execute_step` raises for a given failing final attempt: the
`TimeoutError` for a timeout, the re-raised exception otherwise. -/
def lastFailureError (step : WorkflowStep) : AttemptOutcome → StepError
  | .timedOut => .stepTimeout step.id
  | .raised e => .stepException e
  | .ok _ => .stepExhausted step.id

/-- First step of the mutual-dependency workflow: depends on `"s2"`. -/
def cycleStepA : WorkflowStep :=
  { id := "s1", agent_id := "a1", task_data := [], dependencies := ["s2"] }

/-- Second step of the mutual-dependency workflow: depends on `"s1"`. -/
def cycleStepB : WorkflowStep :=
  { id := "s2", agent_id := "a2", task_data := [], dependencies := ["s1"] }

/-- A workflow whose two steps mutually depend on each other. -/
def cycleDef : WorkflowDefinition :=
  { id := "wf_cycle", name := "cycle", steps := [cycleStepA, cycleStepB],
    parallel_execution := true }

/-- A running execution of the cyclic workflow. -/
def cycleExec : WorkflowExecution :=
  { workflow_id := "wf_cycle", execution_id := "e_cycle",
    definition := cycleDef, status := .running }

/-- A single dependency-free step. -/
def soloStep : WorkflowStep :=
  { id := "p1", agent_id := "ag", task_data := [] }

/-- A one-step parallel workflow. -/
def soloDef : WorkflowDefinition :=
  { id := "wf_solo", name := "solo", steps := [soloStep],
    parallel_execution := true }

/-- A running execution of the one-step workflow. -/
def soloExec : WorkflowExecution :=
  { workflow_id := "wf_solo", execution_id := "ex_solo",
    definition := soloDef, status := .running }

/-- An environment whose agents all succeed immediately with an empty
result. -/
def envOk : AgentEnv := fun _ _ _ => .ok []

/-- An environment whose agents all time out on every attempt. -/
def envTimeout : AgentEnv := fun _ _ _ => .timedOut

/-- An environment in which agent `"agB"` always raises and every other
agent echoes its task data. -/
def envBFails : AgentEnv := fun ag _ d =>
  if ag == "agB" then .raised "boom" else .ok d

/-- A concrete step with a retry budget of three. -/
def retryStep : WorkflowStep :=
  { id := "r1", agent_id := "ag_r", task_data := [], retry_count := 3 }

/-- A LOW-priority message (priority value 1), used to refute the claimed
queue-key formula. -/
def mLow : Message :=
  { id := "m_low", type := .task_request, priority := .low,
    sender_id := "s", recipient_id := "r", payload := [], timestamp := 10 }

/-- First of two NORMAL-priority messages to the same recipient. -/
def mFirst : Message :=
  { id := "m_first", type := .task_request, priority := .normal,
    sender_id := "s", recipient_id := "r", payload := [], timestamp := 1 }

/-- Second of two NORMAL-priority messages to the same recipient. -/
def mSecond : Message :=
  { id := "m_second", type := .task_request, priority := .normal,
    sender_id := "s", recipient_id := "r", payload := [], timestamp := 2 }

/-- A message that already expired at send time 5. -/
def mExpired : Message :=
  { id := "m_exp", type := .status_update, priority := .normal,
    sender_id := "s", recipient_id := "r", payload := [], timestamp := 4,
    expires_at := some 3 }

/-- A response correlated to the outstanding request `"req1"`. -/
def mReplyTo1 : Message :=
  { id := "m_resp", type := .task_response, priority := .normal,
    sender_id := "b", recipient_id := "a", payload := [], timestamp := 7,
    reply_to := some "req1" }

/-- Two outstanding pending requests. -/
def twoPending : PendingMap := [("req1", .waiting), ("req2", .waiting)]

/-- A three-step parallel workflow `[sB, sD, sE]` with
`on_failure = "continue"` (claim C4). -/
def contDef (sB sD sE : WorkflowStep) : WorkflowDefinition :=
  { id := "wd", name := "n", steps := [sB, sD, sE],
    parallel_execution := true, on_failure := "continue" }

/-- A running execution of `contDef` (claim C4). -/
def contExec (sB sD sE : WorkflowStep) : WorkflowExecution :=
  { workflow_id := "w", execution_id := "e",
    definition := contDef sB sD sE, status := .running }

/-- A three-step workflow `[sA, sB, sC]` with a linear dependency chain
(claim C9). -/
def chainDef (sA sB sC : WorkflowStep) : WorkflowDefinition :=
  { id := "wc", name := "chain", steps := [sA, sB, sC],
    parallel_execution := true }

/-- A running execution of `chainDef` (claim C9). -/
def chainExec (sA sB sC : WorkflowStep) : WorkflowExecution :=
  { workflow_id := "wc", execution_id := "ec",
    definition := chainDef sA sB sC, status := .running }

/-- Concrete failing step B (its agent `"agB"` always raises under
`envBFails`). -/
def stepBw : WorkflowStep := { id := "B", agent_id := "agB", task_data := [] }

/-- Concrete sibling step D with no dependency on B. -/
def stepDw : WorkflowStep := { id := "D", agent_id := "agD", task_data := [] }

/-- Concrete step E depending on B. -/
def stepEw : WorkflowStep :=
  { id := "E", agent_id := "agE", task_data := [], dependencies := ["B"] }

/-- Whether a sequential run returned the `workflow_completed` summary
(rather than propagating a step failure). -/
def seqSucceeded (p : SeqState × Except StepError WorkflowRunResult) : Bool :=
  match p.2 with
  | .ok _ => true
  | .error _ => false

/-- Chain step A: no dependencies (claim C9). -/
def chainStepA (ag : String) (td : Dict) (rc : Nat) : WorkflowStep :=
  { id := "A", agent_id := ag, task_data := td, retry_count := rc }

/-- Chain step B: depends on A (claim C9). -/
def chainStepB (ag : String) (td : Dict) (rc : Nat) : WorkflowStep :=
  { id := "B", agent_id := ag, task_data := td, dependencies := ["A"],
    retry_count := rc }

/-- Chain step C: depends on B (claim C9). -/
def chainStepC (ag : String) (td : Dict) (rc : Nat) : WorkflowStep :=
  { id := "C", agent_id := ag, task_data := td, dependencies := ["B"],
    retry_count := rc }

/-! ## Helper lemmas on pending-request maps -/

theorem PendingMap.lookup_eraseKey (p : PendingMap) (k : String) :
    (p.eraseKey k).lookup k = none := by
  unfold PendingMap.eraseKey PendingMap.lookup
  rw [List.find?_filter]
  have h : List.find? (fun a => decide (((a.1 != k) = true) ∧ ((a.1 == k) = true))) p
      = none := by
    rw [List.find?_eq_none]
    intro kv _
    simp only [bne_iff_ne, beq_iff_eq, decide_eq_true_eq]
    rintro ⟨h1, h2⟩
    exact h1 h2
  rw [h]
  rfl

theorem PendingMap.hasKey_insert (p : PendingMap) (k : String) (f : FutureState) :
    (p.insert k f).hasKey k = true := by
  unfold PendingMap.insert PendingMap.hasKey
  by_cases h : p.any (fun kv => kv.1 == k)
  · rw [if_pos h, List.find?_isSome]
    rw [List.any_eq_true] at h
    obtain ⟨kv, hmem, hk⟩ := h
    refine ⟨(kv.1, f), List.mem_map.mpr ⟨kv, hmem, ?_⟩, hk⟩
    simp only [hk, if_pos]
  · rw [if_neg h, List.find?_isSome]
    exact ⟨(k, f), by simp, by simp⟩

/-- **C6.** `send_request` that observes no matching response within its
timeout resolves to the timeout failure — a constructor distinct from a
normal response and from any other failure — and the communicator's
`pending_requests` afterwards holds no entry for that request id. -/
theorem send_request_timeout_distinct_and_clean
    (pending : PendingMap) (request_id : String) :
    (send_request pending request_id .timedOut).2 = .timeoutFailure ∧
    ((send_request pending request_id .timedOut).1).lookup request_id = none ∧
    (send_request pending request_id .timedOut).2 ≠ .cancelledFailure ∧
    (∀ m, (send_request pending request_id .timedOut).2 ≠ .response m) := by
  refine ⟨rfl, ?_, by simp [send_request], by intro m; simp [send_request]⟩
  simp only [send_request, PendingMap.hasKey_insert, if_true]
  exact PendingMap.lookup_eraseKey _ _



theorem lookup_update_self (p : PendingMap) (r : String) (m : Message)
    (h : PendingMap.lookup p r = some .waiting) :
    PendingMap.lookup
      (p.map (fun kv =>
        if kv.1 == r then (kv.1, kv.2.setResultIfPending m) else kv)) r
      = some (.resolved m) := by
  unfold PendingMap.lookup at h ⊢
  rw [List.find?_map]
  have hpred : ((fun kv : String × FutureState => kv.1 == r) ∘
      (fun kv => if kv.1 == r then (kv.1, kv.2.setResultIfPending m) else kv))
      = fun kv => kv.1 == r := by
    funext kv
    by_cases hb : (kv.1 == r) = true <;> simp [Function.comp, hb]
  rw [hpred]
  cases hf : List.find? (fun kv => kv.1 == r) p with
  | none => rw [hf] at h; simp at h
  | some kv =>
    rw [hf] at h
    have hb : (kv.1 == r) = true := by
      have hx := List.find?_some hf
      simpa using hx
    simp only [Option.map_some'] at h ⊢
    injection h with h
    simp [hb, h, FutureState.setResultIfPending]

theorem lookup_update_other (p : PendingMap) (r k : String) (m : Message)
    (hk : k ≠ r) :
    PendingMap.lookup
      (p.map (fun kv =>
        if kv.1 == r then (kv.1, kv.2.setResultIfPending m) else kv)) k
      = PendingMap.lookup p k := by
  unfold PendingMap.lookup
  rw [List.find?_map]
  have hpred : ((fun kv : String × FutureState => kv.1 == k) ∘
      (fun kv => if kv.1 == r then (kv.1, kv.2.setResultIfPending m) else kv))
      = fun kv => kv.1 == k := by
    funext kv
    by_cases hb : (kv.1 == r) = true <;> simp [Function.comp, hb]
  rw [hpred]
  cases hf : List.find? (fun kv => kv.1 == k) p with
  | none => simp
  | some kv =>
    have hb : (kv.1 == k) = true := by
      have hx := List.find?_some hf
      simpa using hx
    have hbr : (kv.1 == r) = false := by
      refine beq_eq_false_iff_ne.mpr ?_
      rw [beq_iff_eq.mp hb]
      exact hk
    simp [hbr]
    rw [if_neg (beq_eq_false_iff_ne.mp hbr)]

/-- **C7.** An incoming message whose `reply_to` equals one outstanding
request's id resolves exactly that pending request (its future becomes
resolved with the message) and leaves every other entry of
`pending_requests` untouched, even with several requests outstanding; a
message whose `reply_to` matches no outstanding request, or carries no
`reply_to` at all, is dropped without any effect on the map. -/
theorem response_resolves_exactly_one (p : PendingMap) (m : Message) (r : String)
    (hreply : m.reply_to = some r) (hwait : p.lookup r = some .waiting) :
    (handle_message p m).lookup r = some (.resolved m) ∧
    (∀ k, k ≠ r → (handle_message p m).lookup k = p.lookup k) ∧
    (∀ m2 r2, m2.reply_to = some r2 → p.hasKey r2 = false →
      handle_message p m2 = p) ∧
    (∀ m2, m2.reply_to = none → handle_message p m2 = p) := by
  have hkey : p.hasKey r = true := by
    unfold PendingMap.hasKey
    unfold PendingMap.lookup at hwait
    cases hf : p.find? (fun kv => kv.1 == r) with
    | none => rw [hf] at hwait; simp at hwait
    | some kv => simp
  refine ⟨?_, ?_, ?_, ?_⟩
  · unfold handle_message
    rw [hreply]
    simp only [hkey, if_true]
    exact lookup_update_self p r m hwait
  · intro k hk
    unfold handle_message
    rw [hreply]
    simp only [hkey, if_true]
    exact lookup_update_other p r k m hk
  · intro m2 r2 h2 hk2
    unfold handle_message
    rw [h2]
    simp only [hk2]
    simp
  · intro m2 h2
    unfold handle_message
    rw [h2]

/-- Witness for C7: a concrete map with two outstanding requests and a
response correlated to the first. -/
theorem response_resolves_exactly_one_witness :
    mReplyTo1.reply_to = some "req1" ∧
    twoPending.lookup "req1" = some .waiting ∧
    (handle_message twoPending mReplyTo1).lookup "req1"
      = some (.resolved mReplyTo1) ∧
    (handle_message twoPending mReplyTo1).lookup "req2"
      = twoPending.lookup "req2" :=
  ⟨rfl, rfl,
    (response_resolves_exactly_one twoPending mReplyTo1 "req1" rfl rfl).1,
    (response_resolves_exactly_one twoPending mReplyTo1 "req1" rfl rfl).2.1
      "req2" (by decide)⟩

/-! ## Claim C8 — expired messages are dropped silently -/

theorem mem_deliveryOrder_imp (q : List QueueEntry) (m : Message)
    (h : m ∈ deliveryOrder q) : m ∈ q.map (fun e => e.2.2) := by
  unfold deliveryOrder at h
  rcases List.mem_map.mp h with ⟨e, he, rfl⟩
  exact List.mem_map.mpr ⟨e, (List.mem_insertionSort entryLe).mp he, rfl⟩

/-- **C8.** A message whose `expires_at` lies strictly in the past when
`send_message` is called is not enqueued — the queue is returned exactly as
it was, with no error surfaced (the function is total) — and consequently the
message is never handed to `_deliver_message`, hence never delivered to any
subscriber. -/
theorem expired_message_never_enqueued (now : Nat) (q : List QueueEntry)
    (m : Message) (t : Nat) (hexp : m.expires_at = some t) (hpast : t < now) :
    send_message now q m = q ∧
    (m ∉ q.map (fun e => e.2.2) →
      m ∉ deliveryOrder (send_message now q m)) := by
  have hdrop : send_message now q m = q := by
    unfold send_message
    simp [hexp, hpast]
  refine ⟨hdrop, ?_⟩
  intro hnot hmem
  rw [hdrop] at hmem
  exact hnot (mem_deliveryOrder_imp q m hmem)

/-- Witness for C8: a message that expired at tick 3, sent at tick 5. -/
theorem expired_message_never_enqueued_witness :
    mExpired.expires_at = some 3 ∧ (3 : Nat) < 5 ∧
    send_message 5 [] mExpired = [] ∧
    mExpired ∉ deliveryOrder (send_message 5 [] mExpired) :=
  ⟨rfl, by decide,
    (expired_message_never_enqueued 5 [] mExpired 3 rfl (by decide)).1,
    (expired_message_never_enqueued 5 [] mExpired 3 rfl (by decide)).2
      (by simp)⟩

/-! ## Claim C5 — priority-queue key and delivery order -/

theorem keyLe_total (a b : Nat × Nat) : keyLe a b ∨ keyLe b a := by
  obtain ⟨a1, a2⟩ := a
  obtain ⟨b1, b2⟩ := b
  simp only [keyLe, keyLt, Prod.mk.injEq]
  omega

theorem keyLe_trans {a b c : Nat × Nat} (h1 : keyLe a b) (h2 : keyLe b c) :
    keyLe a c := by
  obtain ⟨a1, a2⟩ := a
  obtain ⟨b1, b2⟩ := b
  obtain ⟨c1, c2⟩ := c
  simp only [keyLe, keyLt, Prod.mk.injEq] at h1 h2 ⊢
  omega

theorem keyLt_irrefl (a : Nat × Nat) : ¬ keyLt a a := by
  obtain ⟨a1, a2⟩ := a
  simp only [keyLt]
  omega

theorem keyLt_keyLe_false {a b : Nat × Nat} (h1 : keyLt a b) (h2 : keyLe b a) :
    False := by
  obtain ⟨a1, a2⟩ := a
  obtain ⟨b1, b2⟩ := b
  simp only [keyLe, keyLt, Prod.mk.injEq] at h1 h2
  omega

instance : IsTotal QueueEntry entryLe :=
  ⟨fun e f => keyLe_total e.1 f.1⟩

instance : IsTrans QueueEntry entryLe :=
  ⟨fun _ _ _ h1 h2 => keyLe_trans h1 h2⟩

/-- In a heap-ordered (sorted) list, an entry with strictly smaller key
appears before one with strictly larger key: the two form a sublist. -/
theorem sorted_pair_sublist {l : List QueueEntry} {e1 e2 : QueueEntry}
    (hs : l.Sorted entryLe) (h1 : e1 ∈ l) (h2 : e2 ∈ l)
    (hlt : keyLt e1.1 e2.1) : [e1, e2].Sublist l := by
  induction l with
  | nil => cases h1
  | cons a t ih =>
    rw [List.sorted_cons] at hs
    obtain ⟨ha, hst⟩ := hs
    by_cases he1 : e1 = a
    · subst he1
      have h2t : e2 ∈ t := by
        rcases List.mem_cons.mp h2 with h | h
        · subst h
          exact absurd hlt (keyLt_irrefl _)
        · exact h
      exact (List.singleton_sublist.mpr h2t).cons₂ _
    · have h1t : e1 ∈ t := by
        rcases List.mem_cons.mp h1 with h | h
        · exact absurd h he1
        · exact h
      by_cases he2 : e2 = a
      · subst he2
        exact absurd (ha e1 h1t) (fun hle => keyLt_keyLe_false hlt hle)
      · have h2t : e2 ∈ t := by
          rcases List.mem_cons.mp h2 with h | h
          · exact absurd h he2
          · exact h
        exact (ih hst h1t h2t).cons a

theorem mem_send_message {now : Nat} {q : List QueueEntry} {m : Message}
    {e : QueueEntry} (he : e ∈ q) : e ∈ send_message now q m := by
  unfold send_message
  cases m.expires_at with
  | none => exact List.mem_append_left _ he
  | some t =>
    dsimp only
    by_cases hgt : now > t
    · rw [if_pos hgt]; exact he
    · rw [if_neg hgt]; exact List.mem_append_left _ he

theorem self_mem_send_message {now : Nat} {q : List QueueEntry} {m : Message}
    (hexp : expired now m = false) :
    (sendKey m, m.timestamp, m) ∈ send_message now q m := by
  unfold send_message
  unfold expired at hexp
  cases hx : m.expires_at with
  | none => exact List.mem_append_right _ (List.mem_singleton.mpr rfl)
  | some t =>
    rw [hx] at hexp
    dsimp only at hexp
    dsimp only
    rw [if_neg (of_decide_eq_false hexp)]
    exact List.mem_append_right _ (List.mem_singleton.mpr rfl)

theorem mem_foldl_send {now : Nat} {e : QueueEntry} :
    ∀ (rest : List Message) (q : List QueueEntry), e ∈ q →
      e ∈ rest.foldl (send_message now) q := by
  intro rest
  induction rest with
  | nil => intro q h; exact h
  | cons a tl ih => intro q h; exact ih _ (mem_send_message h)

theorem mem_enqueueAll {now : Nat} {msgs : List Message} {m : Message}
    (hm : m ∈ msgs) (hexp : expired now m = false) :
    (sendKey m, m.timestamp, m) ∈ enqueueAll now msgs := by
  unfold enqueueAll
  have main : ∀ (ms : List Message) (q : List QueueEntry), m ∈ ms →
      (sendKey m, m.timestamp, m) ∈ ms.foldl (send_message now) q := by
    intro ms
    induction ms with
    | nil => intro q h; cases h
    | cons a tl ih =>
      intro q h
      rcases List.mem_cons.mp h with h | h
      · subst h
        exact mem_foldl_send tl _ (self_mem_send_message hexp)
      · exact ih _ h
  exact main msgs [] hm

theorem MessagePriority.value_le_four (p : MessagePriority) : p.value ≤ 4 := by
  cases p <;> simp [MessagePriority.value]

/-- **C5 (counterexample).** The queue key `send_message` computes for a
LOW-priority message (priority value 1, timestamp 10) is `(3, 10)` — that is
`(4 - priority_value, timestamp)` — whereas the claimed formula
`(5 - priority_ordinal, enqueue_time)` gives `(4, 10)` for the one-based
ordinal (and `(5, 10)` for a zero-based one). -/
theorem send_key_formula_counterexample :
    sendKey mLow = (3, 10) ∧
    sendKey mLow ≠ (5 - mLow.priority.value, mLow.timestamp) ∧
    (5 - mLow.priority.value, mLow.timestamp) = (4, 10) := by
  refine ⟨rfl, ?_, rfl⟩
  intro h
  exact absurd h (by decide)

/-- **C5 (amended).** `send_message` inserts each non-expired message into
the priority queue keyed by `(4 - priority_value, enqueue_time)`, so that for
two messages to the same recipient the one with the higher declared priority
is delivered first, and two messages of equal priority are delivered FIFO by
arrival time. -/
theorem higher_priority_delivered_first (now : Nat) (msgs : List Message)
    (m1 m2 : Message) (h1 : m1 ∈ msgs) (h2 : m2 ∈ msgs)
    (he1 : expired now m1 = false) (he2 : expired now m2 = false)
    (hrec : m1.recipient_id = m2.recipient_id)
    (horder : (m1.priority = m2.priority ∧ m1.timestamp < m2.timestamp) ∨
      m2.priority.value < m1.priority.value) :
    send_message now [] m1 = [(sendKey m1, m1.timestamp, m1)] ∧
    [m1, m2].Sublist (deliveryOrder (enqueueAll now msgs)) := by
  constructor
  · unfold send_message
    unfold expired at he1
    cases hx : m1.expires_at with
    | none => rfl
    | some t =>
      rw [hx] at he1
      dsimp only at he1
      dsimp only
      rw [if_neg (of_decide_eq_false he1)]
      rfl
  · have hlt : keyLt (sendKey m1) (sendKey m2) := by
      unfold sendKey keyLt
      rcases horder with ⟨hp, ht⟩ | hp
      · exact Or.inr ⟨by rw [hp], ht⟩
      · have hb1 := MessagePriority.value_le_four m1.priority
        have hb2 := MessagePriority.value_le_four m2.priority
        left
        simp only
        omega
    have hq1 : (sendKey m1, m1.timestamp, m1) ∈ enqueueAll now msgs :=
      mem_enqueueAll h1 he1
    have hq2 : (sendKey m2, m2.timestamp, m2) ∈ enqueueAll now msgs :=
      mem_enqueueAll h2 he2
    have hsort : ((enqueueAll now msgs).insertionSort entryLe).Sorted entryLe :=
      List.sorted_insertionSort entryLe _
    have hsub : [(sendKey m1, m1.timestamp, m1),
        (sendKey m2, m2.timestamp, m2)].Sublist
        ((enqueueAll now msgs).insertionSort entryLe) :=
      sorted_pair_sublist hsort
        ((List.mem_insertionSort entryLe).mpr hq1)
        ((List.mem_insertionSort entryLe).mpr hq2) hlt
    unfold deliveryOrder
    have hmap := hsub.map (fun e : QueueEntry => e.2.2)
    simpa using hmap

/-- Witness for C5 (amended): two equal-priority messages to the same
recipient, enqueued in timestamp order, are delivered FIFO. -/
theorem higher_priority_delivered_first_witness :
    mFirst ∈ [mFirst, mSecond] ∧ mSecond ∈ [mFirst, mSecond] ∧
    expired 0 mFirst = false ∧ expired 0 mSecond = false ∧
    mFirst.recipient_id = mSecond.recipient_id ∧
    mFirst.priority = mSecond.priority ∧ mFirst.timestamp < mSecond.timestamp ∧
    [mFirst, mSecond].Sublist (deliveryOrder (enqueueAll 0 [mFirst, mSecond])) :=
  ⟨List.mem_cons_self _ _, by simp, rfl, rfl, rfl, rfl, by decide,
    (higher_priority_delivered_first 0 [mFirst, mSecond] mFirst mSecond
      (List.mem_cons_self _ _) (by simp) rfl rfl rfl
      (Or.inl ⟨rfl, by decide⟩)).2⟩

/-! ## Claim C10 — a failed `process` wedges the agent in ERROR -/

/-- **C10.** If `process` raises inside `BaseAgent.execute`, the agent's
status is set to `ERROR` and the exception is re-raised; every subsequent
`execute` call on that instance then fails with the not-ready `RuntimeError`
(whatever the input, validator or processor); `AgentRegistry.get_agent`
auto-restarts only cached agents whose status is `STOPPED`, so a cached
`ERROR`-status agent is returned unchanged, without `start` being invoked —
while a successful `start` puts the agent back to `READY`. -/
theorem process_failure_wedges_agent :
    (∀ (validate : Dict → Bool) (proc : Dict → Except String Dict)
       (a : AgentState) (input : Dict) (e : String),
       a.status = .ready → validate input = true → proc input = .error e →
       (agent_execute validate proc a input).1.status = .error ∧
       (agent_execute validate proc a input).2 = .error (.processFailure e)) ∧
    (∀ (validate : Dict → Bool) (proc : Dict → Except String Dict)
       (a : AgentState) (input : Dict),
       a.status = .error →
       agent_execute validate proc a input = (a, .error (.notReady .error))) ∧
    (∀ (io : InitOutcome) (auto_start : Bool) (a : AgentState),
       a.status = .error → get_agent_cached io auto_start a = (a, false)) ∧
    (∀ (io : InitOutcome) (auto_start : Bool) (a : AgentState),
       (get_agent_cached io auto_start a).2 = true → a.status = .stopped) ∧
    (∀ (a : AgentState), (agent_start .succeeded a).1.status = .ready) := by
  refine ⟨?_, ?_, ?_, ?_, ?_⟩
  · intro validate proc a input e hready hval hproc
    unfold agent_execute
    rw [if_neg (by rw [hready]; simp), if_neg (by rw [hval]; simp), hproc]
    exact ⟨rfl, rfl⟩
  · intro validate proc a input herr
    unfold agent_execute
    rw [if_pos (by rw [herr]; simp), herr]
  · intro io auto_start a herr
    unfold get_agent_cached
    rw [if_neg (by rw [herr]; simp)]
  · intro io auto_start a h
    unfold get_agent_cached at h
    by_cases hs : a.status = .stopped
    · exact hs
    · rw [if_neg hs] at h
      simp at h
  · intro a
    rfl

/-- Witness for C10: a concrete ready agent whose `process` raises. -/
theorem process_failure_wedges_agent_witness :
    (agent_execute (fun _ => true) (fun _ => .error "boom")
      { id := "w", status := .ready } []).1.status = .error ∧
    (agent_execute (fun _ => true) (fun _ => .error "boom")
      { id := "w", status := .error } []).2 = .error (.notReady .error) ∧
    get_agent_cached .succeeded true { id := "w", status := .error }
      = ({ id := "w", status := .error }, false) :=
  ⟨(process_failure_wedges_agent.1 (fun _ => true) (fun _ => .error "boom")
      { id := "w", status := .ready } [] "boom" rfl rfl rfl).1,
   by
     rw [process_failure_wedges_agent.2.1 (fun _ => true)
       (fun _ => .error "boom") { id := "w", status := .error } [] rfl],
   process_failure_wedges_agent.2.2.1 .succeeded true
     { id := "w", status := .error } rfl⟩

/-! ## Claim C3 — a step failing on every attempt is tried exactly `retry_count` times -/


theorem numCalls_nil : numCalls [] = 0 := rfl

theorem numCalls_cons_call (ag : String) (i : Nat) (l : List StepEvent) :
    numCalls (.callAgent ag i :: l) = numCalls l + 1 := by
  simp [numCalls, List.countP_cons]

theorem numCalls_cons_sleep (l : List StepEvent) :
    numCalls (.backoffSleep :: l) = numCalls l := by
  simp [numCalls, List.countP_cons]

theorem numSleeps_nil : numSleeps [] = 0 := rfl

theorem numSleeps_cons_call (ag : String) (i : Nat) (l : List StepEvent) :
    numSleeps (.callAgent ag i :: l) = numSleeps l := by
  simp [numSleeps, List.countP_cons]

theorem numSleeps_cons_sleep (l : List StepEvent) :
    numSleeps (.backoffSleep :: l) = numSleeps l + 1 := by
  simp [numSleeps, List.countP_cons]

theorem execute_step_loop_all_fail (env : AgentEnv) (step : WorkflowStep)
    (td : Dict) :
    ∀ (d attempt : Nat), step.retry_count - attempt = d →
      attempt < step.retry_count →
      (∀ i, attempt ≤ i → i < step.retry_count →
        (env step.agent_id i td).isFailure = true) →
      numCalls (execute_step_loop env step td attempt).1
          = step.retry_count - attempt ∧
      numSleeps (execute_step_loop env step td attempt).1
          = step.retry_count - attempt - 1 ∧
      (execute_step_loop env step td attempt).2
          = .error (lastFailureError step
              (env step.agent_id (step.retry_count - 1) td)) := by
  intro d
  induction d with
  | zero =>
    intro attempt h0 hlt _
    omega
  | succ n ih =>
    intro attempt hd hlt hfail
    rw [execute_step_loop]
    rw [dif_pos hlt]
    cases hi : env step.agent_id attempt td with
    | ok r =>
      have hf := hfail attempt le_rfl hlt
      rw [hi] at hf
      simp [AttemptOutcome.isFailure] at hf
    | timedOut =>
      dsimp only
      by_cases hlast : (attempt == step.retry_count - 1) = true
      · have ha : attempt = step.retry_count - 1 := by simpa using hlast
        rw [if_pos hlast]
        refine ⟨?_, ?_, ?_⟩
        · rw [numCalls_cons_call, numCalls_nil]
          omega
        · rw [numSleeps_cons_call, numSleeps_nil]
          omega
        · rw [← ha, hi]
          rfl
      · have ha : attempt ≠ step.retry_count - 1 := by simpa using hlast
        rw [if_neg hlast]
        have hlt2 : attempt + 1 < step.retry_count := by omega
        obtain ⟨hc, hs, hr⟩ := ih (attempt + 1) (by omega) hlt2
          (fun i hle hltc => hfail i (by omega) hltc)
        refine ⟨?_, ?_, ?_⟩
        · rw [numCalls_cons_call, numCalls_cons_sleep, hc]
          omega
        · rw [numSleeps_cons_call, numSleeps_cons_sleep, hs]
          omega
        · exact hr
    | raised e =>
      dsimp only
      by_cases hlast : (attempt == step.retry_count - 1) = true
      · have ha : attempt = step.retry_count - 1 := by simpa using hlast
        rw [if_pos hlast]
        refine ⟨?_, ?_, ?_⟩
        · rw [numCalls_cons_call, numCalls_nil]
          omega
        · rw [numSleeps_cons_call, numSleeps_nil]
          omega
        · rw [← ha, hi]
          rfl
      · have ha : attempt ≠ step.retry_count - 1 := by simpa using hlast
        rw [if_neg hlast]
        have hlt2 : attempt + 1 < step.retry_count := by omega
        obtain ⟨hc, hs, hr⟩ := ih (attempt + 1) (by omega) hlt2
          (fun i hle hltc => hfail i (by omega) hltc)
        refine ⟨?_, ?_, ?_⟩
        · rw [numCalls_cons_call, numCalls_cons_sleep, hc]
          omega
        · rw [numSleeps_cons_call, numSleeps_cons_sleep, hs]
          omega
        · exact hr

theorem numCalls_cons_get (ag : String) (l : List StepEvent) :
    numCalls (.getAgent ag :: l) = numCalls l := by
  simp [numCalls, List.countP_cons]

theorem numSleeps_cons_get (ag : String) (l : List StepEvent) :
    numSleeps (.getAgent ag :: l) = numSleeps l := by
  simp [numSleeps, List.countP_cons]

/-- **C3.** A step whose agent call fails (times out or raises) on every
attempt is attempted exactly `retry_count` times — no more and no fewer —
with exactly `retry_count - 1` fixed backoff sleeps between attempts, and
`_execute_step` then raises the failure of the last attempt (the step's
`TimeoutError` for a timeout, the re-raised exception otherwise). -/
theorem retry_exhaustion_exact_count (env : AgentEnv) (step : WorkflowStep)
    (context : Dict) (hrc : 0 < step.retry_count)
    (hfail : ∀ i, i < step.retry_count →
      (env step.agent_id i
        (substitute_context_variables step.task_data context)).isFailure
        = true) :
    numCalls (execute_step env step context).1 = step.retry_count ∧
    numSleeps (execute_step env step context).1 = step.retry_count - 1 ∧
    (execute_step env step context).2 = .error (lastFailureError step
      (env step.agent_id (step.retry_count - 1)
        (substitute_context_variables step.task_data context))) := by
  obtain ⟨hc, hs, hr⟩ := execute_step_loop_all_fail env step
    (substitute_context_variables step.task_data context)
    step.retry_count 0 (by omega) hrc (fun i _ h2 => hfail i h2)
  unfold execute_step
  dsimp only
  refine ⟨?_, ?_, ?_⟩
  · rw [numCalls_cons_get, hc]
    omega
  · rw [numSleeps_cons_get, hs]
    omega
  · exact hr

/-- Witness for C3: an agent that times out on all three attempts. -/
theorem retry_exhaustion_exact_count_witness :
    (0 : Nat) < retryStep.retry_count ∧
    numCalls (execute_step envTimeout retryStep []).1 = 3 ∧
    numSleeps (execute_step envTimeout retryStep []).1 = 2 ∧
    (execute_step envTimeout retryStep []).2 = .error (.stepTimeout "r1") :=
  ⟨by decide,
   (retry_exhaustion_exact_count envTimeout retryStep [] (by decide)
     (fun i _ => rfl)).1,
   (retry_exhaustion_exact_count envTimeout retryStep [] (by decide)
     (fun i _ => rfl)).2.1,
   (retry_exhaustion_exact_count envTimeout retryStep [] (by decide)
     (fun i _ => rfl)).2.2⟩

/-! ## Claim C1 — a dependency cycle makes the parallel loop poll forever -/

theorem cycle_iteration_fixpoint (env : AgentEnv) (on_failure : String)
    (fuel : Nat) (results context step_results : Dict)
    (error_log trace : List String) :
    par_loop env on_failure (fuel + 1)
      { pending := [cycleStepA, cycleStepB], completed := [],
        results := results, context := context, step_results := step_results,
        error_log := error_log, trace := trace }
      = par_loop env on_failure fuel
      { pending := [cycleStepA, cycleStepB], completed := [],
        results := results, context := context, step_results := step_results,
        error_log := error_log, trace := trace } := by
  rw [par_loop]
  rfl

/-- **C1.** Running the workflow whose two steps mutually depend on each
other in parallel mode never terminates: for every amount of fuel the
`while pending_steps` poll loop is still running — in particular the
deadlock `RuntimeError` promised by the claim is never raised, because the
unreachable-dependency test `not any(dep in pending_ids ...)` is false while
the two steps (and hence their dependencies) are still pending. -/
theorem cycle_parallel_never_terminates (env : AgentEnv) (data : Dict)
    (fuel : Nat) :
    (run_parallel env cycleExec data fuel).isOutOfFuel = true := by
  unfold run_parallel
  induction fuel with
  | zero => rfl
  | succ n ih =>
    have hstep := cycle_iteration_fixpoint env cycleExec.definition.on_failure
      n [] data [] [] []
    simp only [cycleExec, cycleDef] at hstep ⊢
    simp only [cycleExec, cycleDef] at ih
    rw [hstep]
    exact ih

/-! ## Claim C2 — pause/cancel only flip the status field; the loops ignore it -/

/-- **C2.** `_pause_workflow` (resp. `_cancel_workflow`) sets the execution's
status to `PAUSED` (resp. `CANCELLED`) and reports success — but neither
executor ever consults `execution.status`: the parallel run of a paused (or
cancelled) execution still starts its next step (the ghost trace records an
`_execute_step` task for `"p1"`), and quite generally the engine's behaviour
is identical for every value of the status field, so the claimed
"never starts a new step while paused / after cancellation" is false. -/
theorem paused_execution_still_starts_steps :
    (pause_workflow [("ex_solo", soloExec)] "ex_solo").1
      = [("ex_solo", { soloExec with status := .paused })] ∧
    (pause_workflow [("ex_solo", soloExec)] "ex_solo").2 = true ∧
    ({ soloExec with status := WorkflowStatus.paused }).status = .paused ∧
    (run_parallel envOk { soloExec with status := .paused } [] 2).trace
      = ["p1"] ∧
    (cancel_workflow [("ex_solo", soloExec)] "ex_solo").1
      = [("ex_solo", { soloExec with status := .cancelled })] ∧
    (run_parallel envOk { soloExec with status := .cancelled } [] 2).trace
      = ["p1"] ∧
    (∀ (ex : WorkflowExecution) (s : WorkflowStatus) (env : AgentEnv)
       (data : Dict) (fuel : Nat),
       (run_parallel env { ex with status := s } data fuel).trace
         = (run_parallel env ex data fuel).trace) := by
  refine ⟨rfl, rfl, rfl, ?_, rfl, ?_, ?_⟩
  · simp [run_parallel, par_loop, ready_of, condition_blocks, execute_step,
      execute_step_loop, process_task_results, removeStep, envOk, soloExec,
      soloDef, soloStep, ParOutcome.trace, ParOutcome.state,
      substitute_context_variables]
  · simp [run_parallel, par_loop, ready_of, condition_blocks, execute_step,
      execute_step_loop, process_task_results, removeStep, envOk, soloExec,
      soloDef, soloStep, ParOutcome.trace, ParOutcome.state,
      substitute_context_variables]
  · intro ex s env data fuel
    rfl

/-! ## Claim C4 — `on_failure="continue"`: siblings proceed, dependents never run -/

theorem execute_step_ok (env : AgentEnv) (step : WorkflowStep) (ctx : Dict)
    (r : Dict) (hrc : 0 < step.retry_count)
    (h : env step.agent_id 0
      (substitute_context_variables step.task_data ctx) = .ok r) :
    execute_step env step ctx
      = ([.getAgent step.agent_id, .callAgent step.agent_id 0], .ok r) := by
  unfold execute_step
  dsimp only
  rw [execute_step_loop, dif_pos hrc, h]

theorem execute_step_fails (env : AgentEnv) (step : WorkflowStep) (ctx : Dict)
    (hfail : ∀ i, (env step.agent_id i
      (substitute_context_variables step.task_data ctx)).isFailure = true) :
    ∃ err, (execute_step env step ctx).2 = .error err := by
  unfold execute_step
  dsimp only
  by_cases hrc : 0 < step.retry_count
  · obtain ⟨_, _, hr⟩ := execute_step_loop_all_fail env step
      (substitute_context_variables step.task_data ctx)
      step.retry_count 0 (by omega) hrc (fun i _ _ => hfail i)
    exact ⟨_, hr⟩
  · rw [execute_step_loop, dif_neg (by omega)]
    exact ⟨_, rfl⟩

/-- **C4.** In parallel mode with `on_failure = "continue"`, for a workflow
`[B, D, E]` where B's agent fails every attempt, D has no dependency on B
and succeeds, and E depends on B: D is still executed (in the same round in
which B fails) and its result is recorded in the execution's `step_results`,
execution proceeds past B's failure, and E is never executed — once only E
remains pending the loop then raises the deadlock `RuntimeError`. -/
theorem continue_failure_sibling_completes (env : AgentEnv) (data : Dict)
    (sB sD sE : WorkflowStep)
    (hidB : sB.id = "B") (hidD : sD.id = "D") (hidE : sE.id = "E")
    (hdepB : sB.dependencies = []) (hdepD : sD.dependencies = [])
    (hdepE : sE.dependencies = ["B"])
    (hcondB : sB.condition = none) (hcondD : sD.condition = none)
    (hcondE : sE.condition = none)
    (hfailB : ∀ i, (env sB.agent_id i
      (substitute_context_variables sB.task_data data)).isFailure = true)
    (hrcD : 0 < sD.retry_count)
    (hokD : ∃ r, env sD.agent_id 0
      (substitute_context_variables sD.task_data data) = .ok r)
    (fuel : Nat) :
    ∃ rD : Dict,
      env sD.agent_id 0 (substitute_context_variables sD.task_data data)
        = .ok rD ∧
      (run_parallel env (contExec sB sD sE) data (fuel + 2)).trace
        = ["B", "D"] ∧
      (run_parallel env (contExec sB sD sE) data
        (fuel + 2)).state.step_results = [("D", Value.dict rD)] ∧
      (run_parallel env (contExec sB sD sE) data
        (fuel + 2)).isDeadlocked = true ∧
      "E" ∉ (run_parallel env (contExec sB sD sE) data (fuel + 2)).trace := by
  obtain ⟨rD, hD⟩ := hokD
  obtain ⟨errB, hBerr⟩ := execute_step_fails env sB data hfailB
  have hD2 : (execute_step env sD data).2 = .ok rD := by
    rw [execute_step_ok env sD data rD hrcD hD]
  refine ⟨rD, hD, ?_, ?_, ?_, ?_⟩
  · simp [run_parallel, contExec, contDef, par_loop, ready_of,
      condition_blocks, process_task_results, removeStep, ParOutcome.trace,
      ParOutcome.state, hidB, hidD, hidE, hdepB, hdepD, hdepE, hcondB,
      hcondD, hcondE, hBerr, hD2]
  · simp [run_parallel, contExec, contDef, par_loop, ready_of,
      condition_blocks, process_task_results, removeStep, ParOutcome.trace,
      ParOutcome.state, hidB, hidD, hidE, hdepB, hdepD, hdepE, hcondB,
      hcondD, hcondE, hBerr, hD2, Dict.insert]
  · simp [run_parallel, contExec, contDef, par_loop, ready_of,
      condition_blocks, process_task_results, removeStep,
      ParOutcome.isDeadlocked, hidB, hidD, hidE,
      hdepB, hdepD, hdepE, hcondB, hcondD, hcondE, hBerr, hD2]
  · simp [run_parallel, contExec, contDef, par_loop, ready_of,
      condition_blocks, process_task_results, removeStep, ParOutcome.trace,
      ParOutcome.state, hidB, hidD, hidE, hdepB, hdepD, hdepE, hcondB,
      hcondD, hcondE, hBerr, hD2]

/-- Witness for C4: concrete steps B (always raising), D (succeeding) and E
(depending on B) under `envBFails`. -/
theorem continue_failure_sibling_completes_witness :
    (∀ i, (envBFails stepBw.agent_id i
      (substitute_context_variables stepBw.task_data [])).isFailure = true) ∧
    0 < stepDw.retry_count ∧
    (run_parallel envBFails (contExec stepBw stepDw stepEw) [] 2).trace
      = ["B", "D"] ∧
    (run_parallel envBFails (contExec stepBw stepDw stepEw) []
      2).state.step_results = [("D", Value.dict [])] ∧
    (run_parallel envBFails (contExec stepBw stepDw stepEw) []
      2).isDeadlocked = true ∧
    "E" ∉ (run_parallel envBFails (contExec stepBw stepDw stepEw) [] 2).trace
    := by
  obtain ⟨rD, hD, h1, h2, h3, h4⟩ :=
    continue_failure_sibling_completes envBFails [] stepBw stepDw stepEw
      rfl rfl rfl rfl rfl rfl rfl rfl rfl (fun i => rfl) (by decide)
      ⟨[], rfl⟩ 0
  have hD' : AttemptOutcome.ok ([] : Dict) = .ok rD := hD
  injection hD' with hD''
  subst hD''
  exact ⟨fun i => rfl, by decide, h1, h2, h3, h4⟩

/-! ## Claim C9 — parallel mode agrees with sequential mode on a chain -/

theorem Dict.insert_hasKey (d : Dict) (k : String) (v : Value) :
    (Dict.insert d k v).hasKey k = true := by
  unfold Dict.insert Dict.hasKey
  by_cases h : d.any (fun kv => kv.1 == k)
  · rw [if_pos h, List.find?_isSome]
    rw [List.any_eq_true] at h
    obtain ⟨kv, hmem, hk⟩ := h
    refine ⟨(kv.1, v), List.mem_map.mpr ⟨kv, hmem, ?_⟩, hk⟩
    simp only [hk, if_pos]
  · rw [if_neg h, List.find?_isSome]
    exact ⟨(k, v), by simp, by simp⟩

/-- **C9.** For the three-step workflow A → B → C (linear dependency chain,
no conditions) whose agent calls all succeed, parallel mode starts the steps
in exactly the dependency order A, B, C — the same order as sequential mode
— completes normally, and produces the same `step_results` map (and the same
local results map) as sequential mode does for the same workflow and
execution data. -/
theorem parallel_matches_sequential_on_chain
    (env : AgentEnv) (data : Dict) (agA agB agC : String)
    (tdA tdB tdC : Dict) (rcA rcB rcC : Nat) (rA rB rC : Dict)
    (hrcA : 0 < rcA) (hrcB : 0 < rcB) (hrcC : 0 < rcC)
    (hA : env agA 0 (substitute_context_variables tdA data) = .ok rA)
    (hB : env agB 0 (substitute_context_variables tdB
      (Dict.insert data "A_result" (Value.dict rA))) = .ok rB)
    (hC : env agC 0 (substitute_context_variables tdC
      (Dict.insert (Dict.insert data "A_result" (Value.dict rA)) "B_result"
        (Value.dict rB))) = .ok rC)
    (fuel : Nat) :
    (run_parallel env (chainExec (chainStepA agA tdA rcA)
      (chainStepB agB tdB rcB) (chainStepC agC tdC rcC)) data
      (fuel + 4)).isCompleted = true ∧
    (run_parallel env (chainExec (chainStepA agA tdA rcA)
      (chainStepB agB tdB rcB) (chainStepC agC tdC rcC)) data
      (fuel + 4)).trace = ["A", "B", "C"] ∧
    seqSucceeded (run_sequential env (chainExec (chainStepA agA tdA rcA)
      (chainStepB agB tdB rcB) (chainStepC agC tdC rcC)) data) = true ∧
    (run_sequential env (chainExec (chainStepA agA tdA rcA)
      (chainStepB agB tdB rcB) (chainStepC agC tdC rcC)) data).1.trace
      = ["A", "B", "C"] ∧
    (run_parallel env (chainExec (chainStepA agA tdA rcA)
      (chainStepB agB tdB rcB) (chainStepC agC tdC rcC)) data
      (fuel + 4)).state.step_results
      = (run_sequential env (chainExec (chainStepA agA tdA rcA)
        (chainStepB agB tdB rcB) (chainStepC agC tdC rcC)) data).1.step_results ∧
    (run_parallel env (chainExec (chainStepA agA tdA rcA)
      (chainStepB agB tdB rcB) (chainStepC agC tdC rcC)) data
      (fuel + 4)).state.results
      = (run_sequential env (chainExec (chainStepA agA tdA rcA)
        (chainStepB agB tdB rcB) (chainStepC agC tdC rcC)) data).1.results := by
  have hA' := execute_step_ok env (chainStepA agA tdA rcA) data rA hrcA hA
  have hB' := execute_step_ok env (chainStepB agB tdB rcB)
    (Dict.insert data "A_result" (Value.dict rA)) rB hrcB hB
  have hC' := execute_step_ok env (chainStepC agC tdC rcC)
    (Dict.insert (Dict.insert data "A_result" (Value.dict rA)) "B_result"
      (Value.dict rB)) rC hrcC hC
  simp only [chainStepA, chainStepB, chainStepC] at hA' hB' hC'
  refine ⟨?_, ?_, ?_, ?_, ?_, ?_⟩ <;>
    simp [run_parallel, run_sequential, chainExec, chainDef, chainStepA,
      chainStepB, chainStepC, par_loop, seq_steps, ready_of,
      condition_blocks, check_dependencies, process_task_results, removeStep,
      Dict.insert_hasKey, ParOutcome.trace, ParOutcome.state,
      ParOutcome.isCompleted, seqSucceeded, hA', hB', hC']

/-- Witness for C9: a concrete chain whose agents all return `[]`. -/
theorem parallel_matches_sequential_on_chain_witness :
    (0 : Nat) < 1 ∧
    envOk "agA" 0 (substitute_context_variables [] []) = .ok [] ∧
    (run_parallel envOk (chainExec (chainStepA "agA" [] 1)
      (chainStepB "agB" [] 1) (chainStepC "agC" [] 1)) [] 4).isCompleted
      = true ∧
    (run_parallel envOk (chainExec (chainStepA "agA" [] 1)
      (chainStepB "agB" [] 1) (chainStepC "agC" [] 1)) [] 4).trace
      = ["A", "B", "C"] ∧
    seqSucceeded (run_sequential envOk (chainExec (chainStepA "agA" [] 1)
      (chainStepB "agB" [] 1) (chainStepC "agC" [] 1)) []) = true ∧
    (run_parallel envOk (chainExec (chainStepA "agA" [] 1)
      (chainStepB "agB" [] 1) (chainStepC "agC" [] 1)) [] 4).state.step_results
      = (run_sequential envOk (chainExec (chainStepA "agA" [] 1)
        (chainStepB "agB" [] 1) (chainStepC "agC" [] 1)) []).1.step_results
    := by
  have t := parallel_matches_sequential_on_chain envOk [] "agA" "agB" "agC"
    [] [] [] 1 1 1 [] [] [] (by decide) (by decide) (by decide) rfl rfl rfl 0
  exact ⟨by decide, rfl, t.1, t.2.1, t.2.2.1, t.2.2.2.2.1⟩
